import Mathlib

/-!
http-in-c : the accept / read / respond / close cycle of `main.c`

A shallow embedding of `handle_client` and `main` of `src/main.c`.

The program is a sequence of system calls.  Each C function is embedded as a
pure function that receives what the kernel answers to its calls and returns
the value the C function returns together with the list of calls and console
writes it performed, in program order.

* bytes and `char` values are natural numbers, memory regions are lists;
* file descriptors and `int` / `ssize_t` results are integers;
* the kernel is an oracle: `ReadReply` for the one `read`, `WriteReply` for the
  one `write`, `Setup` for the four listener calls, one `Conn` per connection
  delivered by `accept`;
* the program never changes the disposition of `SIGPIPE`, so a `write` on a
  connection the peer has reset may end the process inside the call instead of
  returning; that outcome is `WriteReply.sigpipe`.
-/

namespace HttpInC

/-! ## Data model -/

/-- An argument handed to `printf`: a number (`%d`, `%zd`) or the memory that a
`char *` points to (`%s`). -/
inductive Arg where
  | num (v : Int)
  | str (mem : List Nat)
  deriving DecidableEq, Repr

/-- What the kernel answers to `write(fd, buf, count)` on a connection. -/
inductive WriteReply where
  /-- the call returns `v`: the number of bytes taken (all of them or fewer), or
  -1 for an error that is reported by return value -/
  | returns (v : Int)
  /-- the peer has reset the connection and `SIGPIPE` has its default
  disposition: the process is terminated inside the call, which never returns -/
  | sigpipe
  deriving DecidableEq, Repr

/-- One observable action of the process, in the order of the source. -/
inductive Event where
  | socket (ret : Int)
  | setsockopt (fd : Int) (ret : Int)
  | bind (fd : Int) (port : Nat) (ret : Int)
  | listen (fd : Int) (ret : Int)
  | accept (fd : Int) (ret : Int)
  | read (fd : Int) (count : Nat) (ret : Int)
  | write (fd : Int) (data : List Nat) (reply : WriteReply)
  | close (fd : Int)
  | printf (fmt : String) (args : List Arg)
  | perror (tag : String)
  deriving DecidableEq, Repr

/-- Whether an event is a system call (everything except console output). -/
def Event.isSyscall : Event → Bool
  | .printf _ _ => false
  | .perror _ => false
  | _ => true

/-- Whether an event is the line that prints the received data,
`printf("Received %zd bytes: %s\n", n, buf)`. -/
def Event.isReceived : Event → Bool
  | .printf fmt _ => fmt == "Received %zd bytes: %s\n"
  | _ => false

/-- The system calls of a trace, in order. -/
def syscalls (es : List Event) : List Event := es.filter Event.isSyscall

/-- The `read` calls of a trace, in order. -/
def reads (es : List Event) : List Event :=
  es.filter fun e => match e with
    | .read _ _ _ => true
    | _ => false

/-- The `write` calls of a trace, in order. -/
def writes (es : List Event) : List Event :=
  es.filter fun e => match e with
    | .write _ _ _ => true
    | _ => false

/-- Whether an event is a `close` call. -/
def Event.isClose : Event → Bool
  | .close _ => true
  | _ => false

/-- The `close` calls of a trace, in order. -/
def closes (es : List Event) : List Event := es.filter Event.isClose

/-- What the kernel answers to `read(fd, buf, count)` on a connection. -/
inductive ReadReply where
  /-- the call fails: it returns -1 and stores nothing -/
  | error
  /-- the bytes queued on the connection when the call is served; the empty
  queue is end of file (the peer closed without sending) -/
  | ready (rx : List Nat)
  deriving DecidableEq, Repr

/-- One connection as the kernel presents it: the value `accept` returns, the
answer to the handler's `read`, and the answer to its `write` if called. -/
structure Conn where
  accepted : Int
  rd : ReadReply
  wr : WriteReply
  deriving DecidableEq, Repr

/-- The values returned by the four listener calls of `main`. -/
structure Setup where
  socket : Int
  setsockopt : Int
  bind : Int
  listen : Int
  deriving DecidableEq, Repr

/-- What a call of `handle_client` did: the trace, and the value it returned,
`none` when the process was terminated inside the call (it never returned). -/
structure Result where
  events : List Event
  ret : Option Int
  deriving DecidableEq, Repr

/-- Where an execution of `main` against a finite script of connections
stands. -/
inductive Status where
  /-- the script is used up: `main` has not returned and is blocked in `accept` -/
  | running
  /-- the function `main` returned with this exit status -/
  | exited (code : Int)
  /-- the process was terminated by `SIGPIPE` inside the handler's `write` -/
  | killed
  deriving DecidableEq, Repr

/-- An execution of `main` against a finite script of connections: the trace,
and where the process stands at its end. -/
structure Run where
  events : List Event
  status : Status
  deriving DecidableEq, Repr

/-- Put earlier events in front of a run. -/
def Run.after (pre : List Event) (r : Run) : Run := ⟨pre ++ r.events, r.status⟩

/-! ## libc and kernel -/

/-- The port of the server, `#define PORT 6969`. -/
def PORT : Nat := 6969

/-- The value of `sizeof(buf)` for `char buf[1024]`. -/
def sizeof_buf : Nat := 1024

/-- A C string literal as it lies in memory: its characters and the final NUL. -/
def cstring (s : String) : List Nat := s.toList.map Char.toNat ++ [0]

/-- The libc function `strlen`: the number of bytes before the first NUL. -/
def strlen (mem : List Nat) : Nat := (mem.takeWhile fun b => b != 0).length

/-- The effect of `memset(buf, 0, n)` on a buffer of `n` bytes. -/
def memset_zero (n : Nat) : List Nat := List.replicate n 0

/-- The call `read(fd, buf, count)`: the return value and the buffer afterwards.  On
success the kernel moves at most `count` queued bytes to the start of `buf`
and returns how many; the rest of `buf` is untouched. -/
def sys_read (reply : ReadReply) (buf : List Nat) (count : Nat) : Int × List Nat :=
  match reply with
  | .error => (-1, buf)
  | .ready rx =>
    let got := rx.take count
    ((got.length : Int), got ++ buf.drop got.length)

/-! ## `handle_client` -/

/-- The literal `hello` of `handle_client`, as it lies in memory. -/
def hello : List Nat := cstring "HTTP/1.1 200 OK\r\n\r\n<h1>Hello, World!</h1>"

/-- How control leaves one pass through the body of `for (;;)` in
`handle_client`: by `return v`, by `break`, or not at all when the process is
terminated inside `write`.  Every path of the body ends in one of these; none
reaches the end of the body. -/
inductive Flow where
  | ret (v : Int)
  | brk
  | killed
  deriving DecidableEq, Repr

/-- The body of the `for (;;)` loop of `handle_client` (lines 28-49).  The
`write` of line 46 is a plain `write` with `SIGPIPE` at its default: when the
kernel answers it with the signal, nothing after it runs. -/
def handle_client_body (client_fd : Int) (rd : ReadReply) (wr : WriteReply) :
    List Event × Flow :=
  let buf := memset_zero sizeof_buf
  let (n, buf) := sys_read rd buf (sizeof_buf - 1)
  let ev := [Event.read client_fd (sizeof_buf - 1) n]
  if n < 0 then
    (ev ++ [Event.perror "read(client)"], Flow.ret (-1))
  else if n = 0 then
    (ev ++ [Event.printf "Client disconnected\n" []], Flow.ret 0)
  else
    let ev := ev ++ [Event.printf "Received %zd bytes: %s\n" [Arg.num n, Arg.str buf],
                     Event.write client_fd (hello.take (strlen hello)) wr]
    match wr with
    | WriteReply.sigpipe => (ev, Flow.killed)
    | WriteReply.returns _ =>
      (ev ++ [Event.printf "Sent %zd bytes: %s\n" [Arg.num (strlen hello), Arg.str hello],
              Event.close client_fd],
       Flow.brk)

/-- The function `int handle_client(int client_fd)` (lines 15-56): the line of
dashes, the loop body once, and after a `break` the two closing lines and
`return 0`. -/
def handle_client (client_fd : Int) (rd : ReadReply) (wr : WriteReply) : Result :=
  let ev := [Event.printf "\n---------------------\n" []]
  match handle_client_body client_fd rd wr with
  | (evb, Flow.ret v) => ⟨ev ++ evb, some v⟩
  | (evb, Flow.killed) => ⟨ev ++ evb, none⟩
  | (evb, Flow.brk) =>
    ⟨ev ++ evb ++ [Event.printf "\n---------------------\n" [],
                   Event.printf "Client connection closed\n" []], some 0⟩

/-! ## `main` -/

/-- The label `exit:` of `main` (lines 162-164): close the listening socket and
return `ret`. -/
def exit_label (server_fd : Int) (ret : Int) : Run :=
  ⟨[Event.close server_fd], Status.exited ret⟩

/-- The `for (;;)` loop of `main` (lines 141-160) against the connections the
kernel delivers.  With no connection left the process has printed the waiting
line and is blocked in `accept`.  When the process is terminated inside
`handle_client` nothing of `main` runs afterwards. -/
def accept_loop (server_fd : Int) : List Conn → Run
  | [] => ⟨[Event.printf "Waiting for a connection...\n" []], Status.running⟩
  | c :: cs =>
    let client_fd := c.accepted
    let h := handle_client client_fd c.rd c.wr
    let ev := [Event.printf "Waiting for a connection...\n" [],
               Event.accept server_fd client_fd,
               Event.printf "Accepted connection\n" []] ++ h.events
    match h.ret with
    | none => ⟨ev, Status.killed⟩
    | some rc =>
      if rc = -1 then
        (exit_label server_fd 1).after (ev ++ [Event.perror "handle_client"])
      else
        (accept_loop server_fd cs).after
          (ev ++ [Event.printf "Client handled successfully\n" []])

/-- The function `int main(void)` (lines 58-166).  Each `ret = 1; goto exit;` of
the source is `exit_label server_fd 1`; `ret` is 0 until then.  The text of
`strerror(errno)` and of the messages `perror` appends is not modelled. -/
def main (k : Setup) (conns : List Conn) : Run :=
  let server_fd := k.socket
  let ev := [Event.socket server_fd]
  if server_fd = -1 then
    (exit_label server_fd 1).after (ev ++ [Event.perror "socket"])
  else
  let ev := ev ++ [Event.printf "\n---------------------\n" [],
                   Event.printf "Socket created successfully\n" []]
  let ev := ev ++ [Event.setsockopt server_fd k.setsockopt]
  if k.setsockopt = -1 then
    (exit_label server_fd 1).after (ev ++ [Event.printf "SO_REUSEADDR failed: %s \n" []])
  else
  let rc := k.bind
  let ev := ev ++ [Event.bind server_fd PORT rc]
  if rc = -1 then
    (exit_label server_fd 1).after (ev ++ [Event.perror "bind()"])
  else
  let ev := ev ++ [Event.printf "Socket bound to port %d\n" [Arg.num PORT]]
  let rc := k.listen
  let ev := ev ++ [Event.listen server_fd rc]
  if rc = -1 then
    (exit_label server_fd 1).after (ev ++ [Event.perror "listen()"])
  else
  let ev := ev ++ [Event.printf "Listening for incoming connections...\n" []]
  (accept_loop server_fd conns).after ev

/-! ## Auxiliary definitions used to state the properties -/

/-- The value returned by the `read` of `handle_client`: the call is made on a
zeroed buffer of `sizeof_buf` bytes and asks for `sizeof_buf - 1` of them. -/
def read_ret (rd : ReadReply) : Int :=
  (sys_read rd (memset_zero sizeof_buf) (sizeof_buf - 1)).1

/-- The buffer of `handle_client` after its `read`. -/
def read_buf (rd : ReadReply) : List Nat :=
  (sys_read rd (memset_zero sizeof_buf) (sizeof_buf - 1)).2

/-- The four listener calls all succeeded (none returned -1). -/
def setup_ok (k : Setup) : Prop :=
  k.socket ≠ -1 ∧ k.setsockopt ≠ -1 ∧ k.bind ≠ -1 ∧ k.listen ≠ -1

instance (k : Setup) : Decidable (setup_ok k) := by
  unfold setup_ok; infer_instance

/-- The trace of `main` up to the loop when all four listener calls succeed. -/
def setup_events (k : Setup) : List Event :=
  [Event.socket k.socket,
   Event.printf "\n---------------------\n" [],
   Event.printf "Socket created successfully\n" [],
   Event.setsockopt k.socket k.setsockopt,
   Event.bind k.socket PORT k.bind,
   Event.printf "Socket bound to port %d\n" [Arg.num PORT],
   Event.listen k.socket k.listen,
   Event.printf "Listening for incoming connections...\n" []]

/-- The connection descriptors open after a trace: `accept` opens the
descriptor it returns (unless it failed with -1), `close` closes its argument. -/
def open_conns : List Event → List Int → List Int
  | [], o => o
  | Event.accept _ fd :: es, o => open_conns es (if fd = -1 then o else o ++ [fd])
  | Event.close fd :: es, o => open_conns es (o.filter fun x => x != fd)
  | _ :: es, o => open_conns es o

/-- Whether every `accept` of a trace is called with no connection descriptor
open; `o` holds the descriptors open before the trace. -/
def serial : List Event → List Int → Bool
  | [], _ => true
  | Event.accept _ fd :: es, o =>
    o.isEmpty && serial es (if fd = -1 then o else o ++ [fd])
  | Event.close fd :: es, o => serial es (o.filter fun x => x != fd)
  | _ :: es, o => serial es o

/-! ## Lemmas on `handle_client` -/

theorem read_ret_error : read_ret ReadReply.error = -1 := rfl

theorem read_ret_ready (rx : List Nat) :
    read_ret (ReadReply.ready rx) = ((min 1023 rx.length : Nat) : Int) := by
  simp [read_ret, sys_read, sizeof_buf]

theorem read_ret_le (rd : ReadReply) : read_ret rd ≤ 1023 := by
  cases rd with
  | error => simp [read_ret_error]
  | ready rx => rw [read_ret_ready]; omega

theorem read_ret_neg_iff (rd : ReadReply) : read_ret rd < 0 ↔ rd = ReadReply.error := by
  cases rd with
  | error => simp [read_ret_error]
  | ready rx => rw [read_ret_ready]; simp

theorem read_ret_zero_iff (rd : ReadReply) : read_ret rd = 0 ↔ rd = ReadReply.ready [] := by
  cases rd with
  | error => simp [read_ret_error]
  | ready rx =>
    rw [read_ret_ready]
    cases rx with
    | nil => simp
    | cons b t =>
      have : (min 1023 (b :: t).length : Nat) ≠ 0 := by
        simp only [List.length_cons]; omega
      simp only [ReadReply.ready.injEq, reduceCtorEq, iff_false]
      exact_mod_cast this

/-- The handler in terms of the value its `read` returned and the answer to its
`write`. -/
theorem handle_client_eq (client_fd : Int) (rd : ReadReply) (wr : WriteReply) :
    handle_client client_fd rd wr =
      if read_ret rd < 0 then
        ⟨[Event.printf "\n---------------------\n" [],
          Event.read client_fd 1023 (read_ret rd),
          Event.perror "read(client)"], some (-1)⟩
      else if read_ret rd = 0 then
        ⟨[Event.printf "\n---------------------\n" [],
          Event.read client_fd 1023 (read_ret rd),
          Event.printf "Client disconnected\n" []], some 0⟩
      else if wr = WriteReply.sigpipe then
        ⟨[Event.printf "\n---------------------\n" [],
          Event.read client_fd 1023 (read_ret rd),
          Event.printf "Received %zd bytes: %s\n" [Arg.num (read_ret rd), Arg.str (read_buf rd)],
          Event.write client_fd (hello.take (strlen hello)) wr], none⟩
      else
        ⟨[Event.printf "\n---------------------\n" [],
          Event.read client_fd 1023 (read_ret rd),
          Event.printf "Received %zd bytes: %s\n" [Arg.num (read_ret rd), Arg.str (read_buf rd)],
          Event.write client_fd (hello.take (strlen hello)) wr,
          Event.printf "Sent %zd bytes: %s\n" [Arg.num (strlen hello), Arg.str hello],
          Event.close client_fd,
          Event.printf "\n---------------------\n" [],
          Event.printf "Client connection closed\n" []], some 0⟩ := by
  have hsz : sizeof_buf - 1 = 1023 := rfl
  unfold handle_client handle_client_body read_ret read_buf
  rw [hsz]
  cases h : sys_read rd (memset_zero sizeof_buf) 1023 with
  | mk n buf =>
    simp only [h]
    cases wr <;> split_ifs <;> simp_all

theorem hello_request :
    hello.take (strlen hello)
      = "HTTP/1.1 200 OK\r\n\r\n<h1>Hello, World!</h1>".toList.map Char.toNat := by
  decide

theorem handle_client_ret_cases (client_fd : Int) (rd : ReadReply) (wr : WriteReply) :
    (handle_client client_fd rd wr).ret = some 0
      ∨ (handle_client client_fd rd wr).ret = some (-1)
      ∨ (handle_client client_fd rd wr).ret = none := by
  rw [handle_client_eq]
  split_ifs <;> simp

theorem handle_client_ret_iff (client_fd : Int) (rd : ReadReply) (wr : WriteReply) :
    (handle_client client_fd rd wr).ret = some (-1) ↔ read_ret rd < 0 := by
  rw [handle_client_eq]
  split_ifs <;> simp [*]

theorem handle_client_ret_none_iff (client_fd : Int) (rd : ReadReply) (wr : WriteReply) :
    (handle_client client_fd rd wr).ret = none
      ↔ 0 < read_ret rd ∧ wr = WriteReply.sigpipe := by
  rw [handle_client_eq]
  split_ifs <;> simp [*] <;> omega

theorem handle_client_closes_only (client_fd : Int) (rd : ReadReply) (wr : WriteReply)
    (x : Int) (h : Event.close x ∈ (handle_client client_fd rd wr).events) :
    x = client_fd := by
  rw [handle_client_eq] at h
  split_ifs at h <;> simp at h
  exact h

/-- The handler closes the client handle once on the path with data when the
write returns, and not at all on the two early returns or when the process is
terminated inside the write. -/
theorem handle_client_closes (client_fd : Int) (rd : ReadReply) (wr : WriteReply) :
    closes (handle_client client_fd rd wr).events
      = if 0 < read_ret rd ∧ wr ≠ WriteReply.sigpipe then [Event.close client_fd] else [] := by
  rw [handle_client_eq]
  by_cases h0 : 0 < read_ret rd
  · have hn : ¬ read_ret rd < 0 := by omega
    have hz : ¬ read_ret rd = 0 := by omega
    rw [if_neg hn, if_neg hz]
    by_cases hw : wr = WriteReply.sigpipe
    · simp [hw, closes, Event.isClose]
    · simp [hw, h0, closes, Event.isClose]
  · have hc : ¬ (0 < read_ret rd ∧ wr ≠ WriteReply.sigpipe) := fun h => h0 h.1
    rw [if_neg hc]
    by_cases hn : read_ret rd < 0
    · simp [hn, closes, Event.isClose]
    · have hz : read_ret rd = 0 := by omega
      simp [hz, closes, Event.isClose]

theorem handle_client_closes_of_ret (client_fd : Int) (rd : ReadReply) (wr : WriteReply)
    (h : (handle_client client_fd rd wr).ret = some 0) :
    closes (handle_client client_fd rd wr).events
      = if 0 < read_ret rd then [Event.close client_fd] else [] := by
  have hn : ¬ (0 < read_ret rd ∧ wr = WriteReply.sigpipe) := by
    rw [← handle_client_ret_none_iff client_fd rd wr, h]; simp
  rw [handle_client_closes]
  by_cases h0 : 0 < read_ret rd
  · have : wr ≠ WriteReply.sigpipe := fun hw => hn ⟨h0, hw⟩
    simp [h0, this]
  · simp [h0]

theorem handle_client_syscalls_head (client_fd : Int) (rd : ReadReply) (wr : WriteReply) :
    ∃ rest : List Event,
      syscalls (handle_client client_fd rd wr).events
        = Event.read client_fd 1023 (read_ret rd) :: rest := by
  rw [handle_client_eq]
  split_ifs
  · exact ⟨[], by simp [syscalls, Event.isSyscall]⟩
  · exact ⟨[], by simp [syscalls, Event.isSyscall]⟩
  · exact ⟨[Event.write client_fd (hello.take (strlen hello)) wr],
      by simp [syscalls, Event.isSyscall]⟩
  · exact ⟨[Event.write client_fd (hello.take (strlen hello)) wr, Event.close client_fd],
      by simp [syscalls, Event.isSyscall]⟩

/-! ## Lemmas on the accept loop -/

theorem syscalls_append (a b : List Event) : syscalls (a ++ b) = syscalls a ++ syscalls b := by
  simp [syscalls]

theorem accept_loop_cons_killed (server_fd : Int) (c : Conn) (cs : List Conn)
    (h : (handle_client c.accepted c.rd c.wr).ret = none) :
    accept_loop server_fd (c :: cs) =
      ⟨[Event.printf "Waiting for a connection...\n" [],
        Event.accept server_fd c.accepted,
        Event.printf "Accepted connection\n" []]
        ++ (handle_client c.accepted c.rd c.wr).events, Status.killed⟩ := by
  simp only [accept_loop, h]

theorem accept_loop_cons_exit (server_fd : Int) (c : Conn) (cs : List Conn)
    (h : (handle_client c.accepted c.rd c.wr).ret = some (-1)) :
    accept_loop server_fd (c :: cs) =
      ⟨[Event.printf "Waiting for a connection...\n" [],
        Event.accept server_fd c.accepted,
        Event.printf "Accepted connection\n" []]
        ++ (handle_client c.accepted c.rd c.wr).events
        ++ [Event.perror "handle_client", Event.close server_fd], Status.exited 1⟩ := by
  simp [accept_loop, h, Run.after, exit_label]

theorem accept_loop_cons_continue (server_fd : Int) (c : Conn) (cs : List Conn)
    (h : (handle_client c.accepted c.rd c.wr).ret = some 0) :
    accept_loop server_fd (c :: cs) =
      ⟨[Event.printf "Waiting for a connection...\n" [],
        Event.accept server_fd c.accepted,
        Event.printf "Accepted connection\n" []]
        ++ (handle_client c.accepted c.rd c.wr).events
        ++ [Event.printf "Client handled successfully\n" []]
        ++ (accept_loop server_fd cs).events, (accept_loop server_fd cs).status⟩ := by
  simp [accept_loop, h, Run.after]

theorem accept_loop_cons_syscalls (server_fd : Int) (c : Conn) (cs : List Conn) :
    ∃ rest : List Event,
      syscalls (accept_loop server_fd (c :: cs)).events
        = Event.accept server_fd c.accepted
          :: Event.read c.accepted 1023 (read_ret c.rd) :: rest := by
  obtain ⟨r, hr⟩ := handle_client_syscalls_head c.accepted c.rd c.wr
  rcases handle_client_ret_cases c.accepted c.rd c.wr with h | h | h
  · rw [accept_loop_cons_continue _ _ _ h]
    refine ⟨r ++ syscalls (accept_loop server_fd cs).events, ?_⟩
    simp only [syscalls_append, hr]
    simp [syscalls, Event.isSyscall]
  · rw [accept_loop_cons_exit _ _ _ h]
    refine ⟨r ++ [Event.close server_fd], ?_⟩
    simp only [syscalls_append, hr]
    simp [syscalls, Event.isSyscall]
  · rw [accept_loop_cons_killed _ _ _ h]
    refine ⟨r, ?_⟩
    simp only [syscalls_append, hr]
    simp [syscalls, Event.isSyscall]

theorem accept_loop_status_cases (server_fd : Int) (cs : List Conn) :
    (accept_loop server_fd cs).status = Status.running
      ∨ (accept_loop server_fd cs).status = Status.exited 1
      ∨ (accept_loop server_fd cs).status = Status.killed := by
  induction cs with
  | nil => left; rfl
  | cons c cs ih =>
    rcases handle_client_ret_cases c.accepted c.rd c.wr with h | h | h
    · rw [accept_loop_cons_continue _ _ _ h]; exact ih
    · rw [accept_loop_cons_exit _ _ _ h]; right; left; rfl
    · rw [accept_loop_cons_killed _ _ _ h]; right; right; rfl

theorem accept_loop_append_stopped (server_fd : Int) (cs more : List Conn)
    (h : (accept_loop server_fd cs).status ≠ Status.running) :
    accept_loop server_fd (cs ++ more) = accept_loop server_fd cs := by
  induction cs with
  | nil => simp [accept_loop] at h
  | cons c cs ih =>
    rcases handle_client_ret_cases c.accepted c.rd c.wr with hc | hc | hc
    · rw [accept_loop_cons_continue _ _ _ hc] at h
      rw [List.cons_append, accept_loop_cons_continue _ _ _ hc,
        accept_loop_cons_continue _ _ _ hc, ih h]
    · rw [List.cons_append, accept_loop_cons_exit _ _ _ hc, accept_loop_cons_exit _ _ _ hc]
    · rw [List.cons_append, accept_loop_cons_killed _ _ _ hc,
        accept_loop_cons_killed _ _ _ hc]

theorem accept_loop_append_filter (p : Event → Bool)
    (hp : p (Event.printf "Waiting for a connection...\n" []) = false)
    (server_fd : Int) (cs more : List Conn)
    (h : (accept_loop server_fd cs).status = Status.running) :
    (accept_loop server_fd (cs ++ more)).events.filter p
      = (accept_loop server_fd cs).events.filter p
        ++ (accept_loop server_fd more).events.filter p := by
  induction cs with
  | nil => simp [accept_loop, hp]
  | cons c cs ih =>
    rcases handle_client_ret_cases c.accepted c.rd c.wr with hc | hc | hc
    · rw [accept_loop_cons_continue _ _ _ hc] at h
      rw [List.cons_append, accept_loop_cons_continue _ _ _ hc,
        accept_loop_cons_continue _ _ _ hc]
      simp only [List.filter_append, ih h, List.append_assoc]
    · rw [accept_loop_cons_exit _ _ _ hc] at h
      simp at h
    · rw [accept_loop_cons_killed _ _ _ hc] at h
      simp at h

theorem accept_loop_append_status (server_fd : Int) (cs more : List Conn)
    (h : (accept_loop server_fd cs).status = Status.running) :
    (accept_loop server_fd (cs ++ more)).status = (accept_loop server_fd more).status := by
  induction cs with
  | nil => rfl
  | cons c cs ih =>
    rcases handle_client_ret_cases c.accepted c.rd c.wr with hc | hc | hc
    · rw [accept_loop_cons_continue _ _ _ hc] at h
      rw [List.cons_append, accept_loop_cons_continue _ _ _ hc]
      exact ih h
    · rw [accept_loop_cons_exit _ _ _ hc] at h
      simp at h
    · rw [accept_loop_cons_killed _ _ _ hc] at h
      simp at h

theorem accept_loop_append_running (server_fd : Int) (cs more : List Conn)
    (h : (accept_loop server_fd cs).status = Status.running) :
    syscalls (accept_loop server_fd (cs ++ more)).events
        = syscalls (accept_loop server_fd cs).events
          ++ syscalls (accept_loop server_fd more).events
      ∧ (accept_loop server_fd (cs ++ more)).status = (accept_loop server_fd more).status :=
  ⟨accept_loop_append_filter Event.isSyscall rfl server_fd cs more h,
   accept_loop_append_status server_fd cs more h⟩

theorem accept_loop_running_last (server_fd : Int) (cs : List Conn)
    (h : (accept_loop server_fd cs).status = Status.running) :
    (accept_loop server_fd cs).events.getLast?
      = some (Event.printf "Waiting for a connection...\n" []) := by
  induction cs with
  | nil => rfl
  | cons c cs ih =>
    rcases handle_client_ret_cases c.accepted c.rd c.wr with hc | hc | hc
    · rw [accept_loop_cons_continue _ _ _ hc] at h ⊢
      have hne : (accept_loop server_fd cs).events ≠ [] := by
        intro h0
        have := ih h
        rw [h0] at this
        simp at this
      simp only
      rw [List.getLast?_append_of_ne_nil _ hne]
      exact ih h
    · rw [accept_loop_cons_exit _ _ _ hc] at h
      simp at h
    · rw [accept_loop_cons_killed _ _ _ hc] at h
      simp at h

theorem accept_loop_running_no_close (server_fd : Int) (cs : List Conn)
    (h : (accept_loop server_fd cs).status = Status.running)
    (fresh : ∀ c ∈ cs, c.accepted ≠ server_fd) :
    Event.close server_fd ∉ (accept_loop server_fd cs).events := by
  induction cs with
  | nil => simp [accept_loop]
  | cons c cs ih =>
    rcases handle_client_ret_cases c.accepted c.rd c.wr with hc | hc | hc
    · rw [accept_loop_cons_continue _ _ _ hc] at h ⊢
      have hfd : c.accepted ≠ server_fd := fresh c (List.mem_cons_self _ _)
      have ih2 := ih h (fun x hx => fresh x (List.mem_cons_of_mem _ hx))
      intro hmem
      simp only [List.mem_append, List.mem_cons, List.mem_singleton, reduceCtorEq,
        List.not_mem_nil, or_false, false_or] at hmem
      rcases hmem with hmem | hmem
      · exact hfd (handle_client_closes_only _ _ _ _ hmem).symm
      · exact ih2 hmem
    · rw [accept_loop_cons_exit _ _ _ hc] at h
      simp at h
    · rw [accept_loop_cons_killed _ _ _ hc] at h
      simp at h

/-! ## Lemmas on `main` -/

theorem main_of_setup_ok (k : Setup) (cs : List Conn) (h : setup_ok k) :
    main k cs = (accept_loop k.socket cs).after (setup_events k) := by
  obtain ⟨h1, h2, h3, h4⟩ := h
  simp [main, h1, h2, h3, h4, setup_events]

theorem main_status_of_setup_ok (k : Setup) (cs : List Conn) (h : setup_ok k) :
    (main k cs).status = (accept_loop k.socket cs).status := by
  rw [main_of_setup_ok k cs h]; rfl

theorem main_events_of_setup_ok (k : Setup) (cs : List Conn) (h : setup_ok k) :
    (main k cs).events = setup_events k ++ (accept_loop k.socket cs).events := by
  rw [main_of_setup_ok k cs h]; rfl

theorem main_of_setup_failed (k : Setup) (cs : List Conn) (h : ¬ setup_ok k) :
    (main k cs).status = Status.exited 1 ∧ ∀ more : List Conn, main k (cs ++ more) = main k cs := by
  unfold setup_ok at h
  unfold main
  simp only [Run.after, exit_label]
  split_ifs <;>
    first
    | exact ⟨rfl, fun _ => rfl⟩
    | (exfalso; exact h ⟨by assumption, by assumption, by assumption, by assumption⟩)

theorem main_status_cases (k : Setup) (cs : List Conn) :
    (main k cs).status = Status.running
      ∨ (main k cs).status = Status.exited 1
      ∨ (main k cs).status = Status.killed := by
  by_cases h : setup_ok k
  · rw [main_status_of_setup_ok k cs h]
    exact accept_loop_status_cases _ _
  · right; left
    exact (main_of_setup_failed k cs h).1

theorem main_append_running (k : Setup) (hs : setup_ok k) (cs more : List Conn)
    (h : (main k cs).status = Status.running) :
    syscalls (main k (cs ++ more)).events
        = syscalls (main k cs).events ++ syscalls (accept_loop k.socket more).events
      ∧ (main k (cs ++ more)).status = (accept_loop k.socket more).status := by
  rw [main_status_of_setup_ok k cs hs] at h
  obtain ⟨h1, h2⟩ := accept_loop_append_running k.socket cs more h
  rw [main_events_of_setup_ok k _ hs, main_events_of_setup_ok k _ hs,
    main_status_of_setup_ok k _ hs]
  refine ⟨?_, h2⟩
  simp only [syscalls_append, h1, List.append_assoc]

theorem main_append_closes (k : Setup) (hs : setup_ok k) (cs : List Conn) (c : Conn)
    (h : (main k cs).status = Status.running)
    (hc : (handle_client c.accepted c.rd c.wr).ret = some 0) :
    closes (main k (cs ++ [c])).events
      = closes (main k cs).events ++ closes (handle_client c.accepted c.rd c.wr).events := by
  rw [main_status_of_setup_ok k cs hs] at h
  have h1 := accept_loop_append_filter Event.isClose rfl k.socket cs [c] h
  rw [main_events_of_setup_ok k _ hs, main_events_of_setup_ok k _ hs]
  unfold closes at *
  rw [List.filter_append, List.filter_append, h1, accept_loop_cons_continue _ _ _ hc]
  simp [accept_loop, Event.isClose]

theorem main_append_stopped (k : Setup) (cs more : List Conn)
    (h : (main k cs).status ≠ Status.running) : main k (cs ++ more) = main k cs := by
  by_cases hs : setup_ok k
  · rw [main_status_of_setup_ok k cs hs] at h
    rw [main_of_setup_ok k _ hs, main_of_setup_ok k _ hs,
      accept_loop_append_stopped _ _ _ h]
  · exact (main_of_setup_failed k cs hs).2 more

/-- Whatever happened before and whatever would follow: once the listener is
set up and the loop is still running, an accept that returns -1 followed by the
failing read on that value makes `main` close the listening socket and exit
with status 1. -/
theorem main_accept_failure_exits (k : Setup) (cs more : List Conn) (wr : WriteReply)
    (hs : setup_ok k) (hrun : (main k cs).status = Status.running) :
    (main k (cs ++ Conn.mk (-1) ReadReply.error wr :: more)).status = Status.exited 1
      ∧ syscalls (main k (cs ++ Conn.mk (-1) ReadReply.error wr :: more)).events
          = syscalls (main k cs).events
            ++ [Event.accept k.socket (-1), Event.read (-1) 1023 (-1), Event.close k.socket] := by
  obtain ⟨hev, hst⟩ :=
    main_append_running k hs cs (Conn.mk (-1) ReadReply.error wr :: more) hrun
  have hc : (handle_client (-1) ReadReply.error wr).ret = some (-1) := by
    rw [handle_client_ret_iff, read_ret_error]; decide
  have hcons := accept_loop_cons_exit k.socket (Conn.mk (-1) ReadReply.error wr) more hc
  refine ⟨by rw [hst, hcons], ?_⟩
  rw [hev, hcons, handle_client_eq, read_ret_error]
  simp [syscalls, Event.isSyscall]

/-! ## Lemmas on the read buffer -/

theorem read_buf_ready (rx : List Nat) :
    read_buf (ReadReply.ready rx)
      = rx.take 1023 ++ List.replicate (1024 - min 1023 rx.length) 0 := by
  have hsz : sizeof_buf = 1024 := rfl
  have hc : sizeof_buf - 1 = 1023 := rfl
  unfold read_buf sys_read memset_zero
  rw [hc, hsz]
  simp only [List.drop_replicate, List.length_take]

theorem takeWhile_append_zero_le (a z : List Nat) :
    ((a ++ 0 :: z).takeWhile fun b => b != 0).length ≤ a.length := by
  induction a with
  | nil => simp
  | cons x a ih =>
    by_cases hx : x = 0
    · simp [hx]
    · simp only [List.cons_append, List.length_cons]
      rw [List.takeWhile_cons_of_pos (by simpa using hx)]
      simpa using ih

theorem read_buf_length (rx : List Nat) : (read_buf (ReadReply.ready rx)).length = 1024 := by
  rw [read_buf_ready]
  simp only [List.length_append, List.length_take, List.length_replicate]
  omega

theorem read_buf_tail (rx : List Nat) (i : Nat) (h1 : min 1023 rx.length ≤ i) (h2 : i < 1024) :
    (read_buf (ReadReply.ready rx))[i]? = some 0 := by
  rw [read_buf_ready]
  rw [List.getElem?_append_right (by simpa using h1)]
  rw [List.getElem?_replicate]
  simp only [List.length_take]
  rw [if_pos (by omega)]

theorem read_buf_strlen (rx : List Nat) :
    strlen (read_buf (ReadReply.ready rx)) ≤ min 1023 rx.length := by
  rw [read_buf_ready]
  have hpos : 1024 - min 1023 rx.length = (1023 - min 1023 rx.length) + 1 := by omega
  rw [hpos, List.replicate_succ]
  have := takeWhile_append_zero_le (rx.take 1023) (List.replicate (1023 - min 1023 rx.length) 0)
  simpa [strlen] using this

/-! ## The connection handler: claims -/

/-- C2: when the read of `handle_client` returns zero bytes, the handler
performs no `write` at all and returns 0. -/
theorem handle_client_eof (client_fd : Int) (rd : ReadReply) (wr : WriteReply)
    (h : read_ret rd = 0) :
    writes (handle_client client_fd rd wr).events = []
      ∧ (handle_client client_fd rd wr).ret = some 0 := by
  have hn : ¬ read_ret rd < 0 := by omega
  rw [handle_client_eq, if_neg hn, if_pos h]
  simp [writes]

theorem handle_client_eof_witness :
    read_ret (ReadReply.ready []) = 0
      ∧ writes (handle_client 4 (ReadReply.ready []) (WriteReply.returns 0)).events = []
      ∧ (handle_client 4 (ReadReply.ready []) (WriteReply.returns 0)).ret = some 0 :=
  ⟨by decide, handle_client_eof 4 (ReadReply.ready []) (WriteReply.returns 0) (by decide)⟩

/-- C3 (the code at the failing inputs): when the read returns 0 the handler
returns 0 having performed no `close` at all, and when the read fails it
returns -1 having performed no `close` either; only the path with data closes
the handle (once). -/
theorem handle_client_leaves_open :
    closes (handle_client 4 (ReadReply.ready []) (WriteReply.returns 0)).events = []
      ∧ (handle_client 4 (ReadReply.ready []) (WriteReply.returns 0)).ret = some 0
      ∧ closes (handle_client 4 ReadReply.error (WriteReply.returns 0)).events = []
      ∧ (handle_client 4 ReadReply.error (WriteReply.returns 0)).ret = some (-1)
      ∧ closes (handle_client 4 (ReadReply.ready [71]) (WriteReply.returns 41)).events
          = [Event.close 4] := by
  decide

/-- C8: one call of `handle_client` performs exactly one `read`, on the client
handle, asking for `sizeof(buf) - 1 = 1023` bytes; the read never returns more
than 1023; and when more than 1023 bytes are queued on the connection exactly
1023 of them are taken (the first 1023, stored at the start of the buffer) and
the fixed response is still the one write. -/
theorem handle_client_single_read (client_fd : Int) (rd : ReadReply) (wr : WriteReply) :
    reads (handle_client client_fd rd wr).events
        = [Event.read client_fd (sizeof_buf - 1) (read_ret rd)]
      ∧ sizeof_buf - 1 = 1023
      ∧ read_ret rd ≤ 1023
      ∧ ∀ rx : List Nat, rd = ReadReply.ready rx → 1023 < rx.length →
          read_ret rd = 1023
          ∧ (read_buf rd).take 1023 = rx.take 1023
          ∧ writes (handle_client client_fd rd wr).events
            = [Event.write client_fd
                ("HTTP/1.1 200 OK\r\n\r\n<h1>Hello, World!</h1>".toList.map Char.toNat) wr] := by
  have hsz : sizeof_buf - 1 = 1023 := rfl
  refine ⟨?_, hsz, read_ret_le rd, ?_⟩
  · rw [handle_client_eq, hsz]
    split_ifs <;> simp [reads]
  · intro rx hrd hlen
    subst hrd
    have hr : read_ret (ReadReply.ready rx) = 1023 := by
      rw [read_ret_ready, Nat.min_eq_left (by omega)]; rfl
    refine ⟨hr, ?_, ?_⟩
    · rw [read_buf_ready]
      have hl : (rx.take 1023).length = 1023 := by
        rw [List.length_take]; omega
      rw [List.take_append_of_le_length (by omega), List.take_take]
      simp
    · have hn : ¬ read_ret (ReadReply.ready rx) < 0 := by omega
      have hz : ¬ read_ret (ReadReply.ready rx) = 0 := by omega
      rw [handle_client_eq, if_neg hn, if_neg hz, hello_request]
      split_ifs <;> simp [writes]

theorem handle_client_single_read_witness :
    read_ret (ReadReply.ready (List.replicate 2000 65)) = 1023
      ∧ (read_buf (ReadReply.ready (List.replicate 2000 65))).take 1023
          = (List.replicate 2000 65).take 1023
      ∧ writes (handle_client 4 (ReadReply.ready (List.replicate 2000 65))
          (WriteReply.returns 41)).events
          = [Event.write 4
              ("HTTP/1.1 200 OK\r\n\r\n<h1>Hello, World!</h1>".toList.map Char.toNat)
              (WriteReply.returns 41)] :=
  (handle_client_single_read 4 (ReadReply.ready (List.replicate 2000 65))
    (WriteReply.returns 41)).2.2.2
    (List.replicate 2000 65) rfl (by rw [List.length_replicate]; decide)

/-- C10: when the read of `handle_client` returns `n > 0`, the handler prints
the received data once, from its buffer as the read left it; that buffer has
1024 bytes, `n ≤ 1023`, every position from index `n` through index 1023 holds
zero, and so the C string printed ends within the buffer, after at most `n`
bytes. -/
theorem received_buffer_terminated (client_fd : Int) (rd : ReadReply) (wr : WriteReply)
    (h : 0 < read_ret rd) :
    (handle_client client_fd rd wr).events.filter Event.isReceived
        = [Event.printf "Received %zd bytes: %s\n" [Arg.num (read_ret rd), Arg.str (read_buf rd)]]
      ∧ (read_buf rd).length = 1024
      ∧ read_ret rd ≤ 1023
      ∧ (∀ i : Nat, read_ret rd ≤ (i : Int) → i < 1024 → (read_buf rd)[i]? = some 0)
      ∧ ((strlen (read_buf rd) : Nat) : Int) ≤ read_ret rd
      ∧ strlen (read_buf rd) < (read_buf rd).length := by
  have hn : ¬ read_ret rd < 0 := by omega
  have hz : ¬ read_ret rd = 0 := by omega
  cases rd with
  | error => simp [read_ret_error] at h
  | ready rx =>
    have hs := read_buf_strlen rx
    have hl := read_buf_length rx
    have hr := read_ret_ready rx
    refine ⟨?_, hl, read_ret_le _, ?_, ?_, ?_⟩
    · rw [handle_client_eq, if_neg hn, if_neg hz]
      split_ifs <;> simp [Event.isReceived]
    · intro i hi hi2
      rw [hr] at hi
      exact read_buf_tail rx i (by exact_mod_cast hi) hi2
    · rw [hr]
      exact_mod_cast hs
    · omega

theorem received_buffer_terminated_witness :
    0 < read_ret (ReadReply.ready [71, 69, 84])
      ∧ (read_buf (ReadReply.ready [71, 69, 84])).length = 1024
      ∧ (read_buf (ReadReply.ready [71, 69, 84]))[3]? = some 0
      ∧ (read_buf (ReadReply.ready [71, 69, 84]))[1023]? = some 0 :=
  ⟨by decide,
   (received_buffer_terminated 4 (ReadReply.ready [71, 69, 84]) (WriteReply.returns 41)
      (by decide)).2.1,
   (received_buffer_terminated 4 (ReadReply.ready [71, 69, 84]) (WriteReply.returns 41)
      (by decide)).2.2.2.1 3 (by decide) (by decide),
   (received_buffer_terminated 4 (ReadReply.ready [71, 69, 84]) (WriteReply.returns 41)
      (by decide)).2.2.2.1 1023 (by decide) (by decide)⟩

/-! ## `main`: claims -/

/-- C5: once the four listener calls have succeeded and the loop has reached a
further iteration (no earlier one ended it), `main` returns at that iteration
exactly when `handle_client` returned -1 there.  In that case the exit status
is 1, the system calls of the iteration are the accept, the handler's calls and
then the close of the listening socket, and nothing the kernel could deliver
afterwards changes the run (no further accept).  When `handle_client` returned
0, `main` has not returned; the only close of the iteration is the handler's
close of the accepted handle, so the listening socket has not been closed
(accept never hands out the listening descriptor itself); `main` has printed
the waiting line and its next system call is an accept on the same listening
socket.  When `handle_client` did not return (the process was terminated by a
signal inside it), `main` does not return either and makes no further call. -/
theorem main_loop_exit_iff (k : Setup) (cs : List Conn) (c : Conn)
    (hs : setup_ok k) (hrun : (main k cs).status = Status.running) :
    ((∃ st : Int, (main k (cs ++ [c])).status = Status.exited st)
        ↔ (handle_client c.accepted c.rd c.wr).ret = some (-1))
      ∧ ((main k (cs ++ [c])).status = Status.running
        ↔ (handle_client c.accepted c.rd c.wr).ret = some 0)
      ∧ ((handle_client c.accepted c.rd c.wr).ret = some (-1) →
          (main k (cs ++ [c])).status = Status.exited 1
          ∧ syscalls (main k (cs ++ [c])).events
              = syscalls (main k cs).events
                ++ Event.accept k.socket c.accepted
                  :: syscalls (handle_client c.accepted c.rd c.wr).events
                ++ [Event.close k.socket]
          ∧ ∀ more : List Conn, main k (cs ++ [c] ++ more) = main k (cs ++ [c]))
      ∧ ((handle_client c.accepted c.rd c.wr).ret = some 0 →
          (main k (cs ++ [c])).status = Status.running
          ∧ closes (main k (cs ++ [c])).events
              = closes (main k cs).events
                ++ (if 0 < read_ret c.rd then [Event.close c.accepted] else [])
          ∧ ((∀ x ∈ cs ++ [c], x.accepted ≠ k.socket) →
              Event.close k.socket ∉ (main k (cs ++ [c])).events)
          ∧ (main k (cs ++ [c])).events.getLast?
              = some (Event.printf "Waiting for a connection...\n" [])
          ∧ ∀ (c2 : Conn) (more : List Conn), ∃ rest : List Event,
              syscalls (main k (cs ++ [c] ++ c2 :: more)).events
                = syscalls (main k (cs ++ [c])).events
                  ++ Event.accept k.socket c2.accepted :: rest)
      ∧ ((handle_client c.accepted c.rd c.wr).ret = none →
          (main k (cs ++ [c])).status = Status.killed
          ∧ syscalls (main k (cs ++ [c])).events
              = syscalls (main k cs).events
                ++ Event.accept k.socket c.accepted
                  :: syscalls (handle_client c.accepted c.rd c.wr).events
          ∧ ∀ more : List Conn, main k (cs ++ [c] ++ more) = main k (cs ++ [c])) := by
  obtain ⟨hev, hst⟩ := main_append_running k hs cs [c] hrun
  have hexit : (handle_client c.accepted c.rd c.wr).ret = some (-1) →
      (main k (cs ++ [c])).status = Status.exited 1 := by
    intro hc
    rw [hst, accept_loop_cons_exit _ _ _ hc]
  have hcont : (handle_client c.accepted c.rd c.wr).ret = some 0 →
      (main k (cs ++ [c])).status = Status.running := by
    intro hc
    rw [hst, accept_loop_cons_continue _ _ _ hc]
    rfl
  have hkill : (handle_client c.accepted c.rd c.wr).ret = none →
      (main k (cs ++ [c])).status = Status.killed := by
    intro hc
    rw [hst, accept_loop_cons_killed _ _ _ hc]
  refine ⟨?_, ?_, ?_, ?_, ?_⟩
  · constructor
    · rintro ⟨st, h⟩
      rcases handle_client_ret_cases c.accepted c.rd c.wr with hc | hc | hc
      · rw [hcont hc] at h; simp at h
      · exact hc
      · rw [hkill hc] at h; simp at h
    · intro hc
      exact ⟨1, hexit hc⟩
  · constructor
    · intro h
      rcases handle_client_ret_cases c.accepted c.rd c.wr with hc | hc | hc
      · exact hc
      · rw [hexit hc] at h; simp at h
      · rw [hkill hc] at h; simp at h
    · exact hcont
  · intro hc
    have hstat := hexit hc
    refine ⟨hstat, ?_, fun more => main_append_stopped k _ more (by rw [hstat]; simp)⟩
    rw [hev, accept_loop_cons_exit _ _ _ hc]
    simp [syscalls, Event.isSyscall]
  · intro hc
    have hstat := hcont hc
    refine ⟨hstat, ?_, ?_, ?_, ?_⟩
    · rw [main_append_closes k hs cs c hrun hc, handle_client_closes_of_ret _ _ _ hc]
    · intro fresh
      rw [main_events_of_setup_ok k _ hs]
      rw [main_status_of_setup_ok k _ hs] at hstat
      intro hmem
      rcases List.mem_append.1 hmem with hm | hm
      · simp [setup_events] at hm
      · exact accept_loop_running_no_close k.socket _ hstat fresh hm
    · rw [main_events_of_setup_ok k _ hs]
      rw [main_status_of_setup_ok k _ hs] at hstat
      have hlast := accept_loop_running_last k.socket _ hstat
      have hne : (accept_loop k.socket (cs ++ [c])).events ≠ [] := by
        intro h0
        rw [h0] at hlast
        simp at hlast
      rw [List.getLast?_append_of_ne_nil _ hne]
      exact hlast
    · intro c2 more
      obtain ⟨hev2, _⟩ := main_append_running k hs (cs ++ [c]) (c2 :: more) hstat
      obtain ⟨r, hr⟩ := accept_loop_cons_syscalls k.socket c2 more
      exact ⟨_, by rw [hev2, hr]⟩
  · intro hc
    have hstat := hkill hc
    refine ⟨hstat, ?_, fun more => main_append_stopped k _ more (by rw [hstat]; simp)⟩
    rw [hev, accept_loop_cons_killed _ _ _ hc]
    simp [syscalls, Event.isSyscall]

theorem main_loop_exit_iff_witness :
    (setup_ok ⟨3, 0, 0, 0⟩
        ∧ (main ⟨3, 0, 0, 0⟩ [⟨4, ReadReply.ready [71], WriteReply.returns 41⟩]).status
            = Status.running)
      ∧ (main ⟨3, 0, 0, 0⟩ ([⟨4, ReadReply.ready [71], WriteReply.returns 41⟩]
            ++ [⟨5, ReadReply.error, WriteReply.returns 0⟩])).status
          = Status.exited 1
      ∧ (main ⟨3, 0, 0, 0⟩ ([⟨4, ReadReply.ready [71], WriteReply.returns 41⟩]
            ++ [⟨5, ReadReply.ready [], WriteReply.returns 0⟩])).status
          = Status.running :=
  ⟨⟨by decide, by decide⟩,
   ((main_loop_exit_iff ⟨3, 0, 0, 0⟩ [⟨4, ReadReply.ready [71], WriteReply.returns 41⟩]
      ⟨5, ReadReply.error, WriteReply.returns 0⟩
      (by decide) (by decide)).2.2.1 (by decide)).1,
   ((main_loop_exit_iff ⟨3, 0, 0, 0⟩ [⟨4, ReadReply.ready [71], WriteReply.returns 41⟩]
      ⟨5, ReadReply.ready [], WriteReply.returns 0⟩
      (by decide) (by decide)).2.2.2.1 (by decide)).1⟩

/-- C6: for each of the four listener calls in the order socket, setsockopt,
bind, listen: when it is the first to return -1, the system calls of `main` are
the calls up to and including the failed one, each made once, followed only by
the close at `exit:`; no later listener call and no accept is made, and the
exit status is 1.  Every run of `main` that returns at all returns 1. -/
theorem main_setup_failure (k : Setup) (cs : List Conn) :
    (k.socket = -1 →
        syscalls (main k cs).events = [Event.socket k.socket, Event.close k.socket]
        ∧ (main k cs).status = Status.exited 1)
      ∧ (k.socket ≠ -1 → k.setsockopt = -1 →
        syscalls (main k cs).events
          = [Event.socket k.socket, Event.setsockopt k.socket k.setsockopt,
             Event.close k.socket]
        ∧ (main k cs).status = Status.exited 1)
      ∧ (k.socket ≠ -1 → k.setsockopt ≠ -1 → k.bind = -1 →
        syscalls (main k cs).events
          = [Event.socket k.socket, Event.setsockopt k.socket k.setsockopt,
             Event.bind k.socket 6969 k.bind, Event.close k.socket]
        ∧ (main k cs).status = Status.exited 1)
      ∧ (k.socket ≠ -1 → k.setsockopt ≠ -1 → k.bind ≠ -1 → k.listen = -1 →
        syscalls (main k cs).events
          = [Event.socket k.socket, Event.setsockopt k.socket k.setsockopt,
             Event.bind k.socket 6969 k.bind, Event.listen k.socket k.listen,
             Event.close k.socket]
        ∧ (main k cs).status = Status.exited 1)
      ∧ (∀ st : Int, (main k cs).status = Status.exited st → st = 1) := by
  refine ⟨?_, ?_, ?_, ?_, ?_⟩
  · intro h1
    simp [main, h1, Run.after, exit_label, syscalls, Event.isSyscall]
  · intro h1 h2
    simp [main, h1, h2, Run.after, exit_label, syscalls, Event.isSyscall]
  · intro h1 h2 h3
    simp [main, h1, h2, h3, Run.after, exit_label, syscalls, Event.isSyscall, PORT]
  · intro h1 h2 h3 h4
    simp [main, h1, h2, h3, h4, Run.after, exit_label, syscalls, Event.isSyscall, PORT]
  · intro st hst
    rcases main_status_cases k cs with h | h | h
    · rw [h] at hst; simp at hst
    · rw [h] at hst
      exact (Status.exited.inj hst).symm
    · rw [h] at hst; simp at hst

theorem main_setup_failure_witness :
    (syscalls (main ⟨3, 0, -1, 0⟩ [⟨4, ReadReply.ready [71], WriteReply.returns 41⟩]).events
        = [Event.socket 3, Event.setsockopt 3 0, Event.bind 3 6969 (-1), Event.close 3]
      ∧ (main ⟨3, 0, -1, 0⟩ [⟨4, ReadReply.ready [71], WriteReply.returns 41⟩]).status
          = Status.exited 1)
    ∧ (syscalls (main ⟨-1, 0, 0, 0⟩ [⟨4, ReadReply.ready [71], WriteReply.returns 41⟩]).events
        = [Event.socket (-1), Event.close (-1)]
      ∧ (main ⟨-1, 0, 0, 0⟩ [⟨4, ReadReply.ready [71], WriteReply.returns 41⟩]).status
          = Status.exited 1) :=
  ⟨(main_setup_failure ⟨3, 0, -1, 0⟩ [⟨4, ReadReply.ready [71], WriteReply.returns 41⟩]).2.2.1
      (by decide) (by decide) (by decide),
   (main_setup_failure ⟨-1, 0, 0, 0⟩ [⟨4, ReadReply.ready [71], WriteReply.returns 41⟩]).1
      (by decide)⟩

/-- C7 (the code at the failing input): the first client connects and closes
without sending, the second sends one byte.  The handler returns 0 for the
first without closing descriptor 4, so `main` calls accept again while 4 is
still open: the second accept is not made with every earlier connection
closed. -/
theorem main_accepts_with_connection_open :
    syscalls (main ⟨3, 0, 0, 0⟩
        [⟨4, ReadReply.ready [], WriteReply.returns 0⟩,
         ⟨5, ReadReply.ready [71], WriteReply.returns 41⟩]).events
        = [Event.socket 3, Event.setsockopt 3 0, Event.bind 3 6969 0, Event.listen 3 0,
           Event.accept 3 4, Event.read 4 1023 0,
           Event.accept 3 5, Event.read 5 1023 1,
           Event.write 5
            ("HTTP/1.1 200 OK\r\n\r\n<h1>Hello, World!</h1>".toList.map Char.toNat)
            (WriteReply.returns 41),
           Event.close 5]
      ∧ open_conns (main ⟨3, 0, 0, 0⟩
          [⟨4, ReadReply.ready [], WriteReply.returns 0⟩]).events [] = [4]
      ∧ serial (main ⟨3, 0, 0, 0⟩
          [⟨4, ReadReply.ready [], WriteReply.returns 0⟩,
           ⟨5, ReadReply.ready [71], WriteReply.returns 41⟩]).events [] = false := by
  decide

/-- C9 (the code at the failing input): the listener is set up on descriptor 3
and one accept fails, returning -1.  `main` does not check the value: its next
system call is the handler's read on -1, which the kernel refuses (a read on an
invalid descriptor returns -1).  The handler returns -1, and `main` closes the
listening socket and exits with status 1; the connection that is waiting behind
the failed accept is never accepted.  The single accept failure has ended the
server. -/
theorem main_exits_on_accept_failure :
    syscalls (main ⟨3, 0, 0, 0⟩
        [⟨-1, ReadReply.error, WriteReply.returns 0⟩,
         ⟨4, ReadReply.ready [71], WriteReply.returns 41⟩]).events
        = [Event.socket 3, Event.setsockopt 3 0, Event.bind 3 6969 0, Event.listen 3 0,
           Event.accept 3 (-1), Event.read (-1) 1023 (-1), Event.close 3]
      ∧ (main ⟨3, 0, 0, 0⟩
          [⟨-1, ReadReply.error, WriteReply.returns 0⟩,
           ⟨4, ReadReply.ready [71], WriteReply.returns 41⟩]).status = Status.exited 1 := by
  decide

end HttpInC
